import Mathlib

set_option maxRecDepth 8192

namespace ClauseCheck

/-!
Shallow embedding of the clausecheck repository.

Segmenter sources:
* `src/src/utils/clauseUtils.ts` — the leading-digit-split variant (`extractClauses`).
* `src/unnamed/part_002` — the numeric-anchor variant (`extractClausesAlt` here,
  also called `extractClauses` in its own file).

Orchestrator sources:
* `src/src/App.tsx` — `handleFileUpload`.
* `src/src/utils/openaiUtils.ts` — `analyzeClausesBatchWithOpenAI` response mapping.

Strings are modelled as `List Char`; JavaScript string lengths count UTF-16 code
units, which agrees with the code-point count for all characters appearing in
the regexes and in the concrete inputs used below.
-/

/-! ## JavaScript character classes -/

/-- The JavaScript `\s` / `trim()` whitespace set (WhiteSpace ∪ LineTerminator). -/
def jsSpace (c : Char) : Bool :=
  decide (c.toNat = 0x09 ∨ c.toNat = 0x0A ∨ c.toNat = 0x0B ∨ c.toNat = 0x0C ∨
    c.toNat = 0x0D ∨ c.toNat = 0x20 ∨ c.toNat = 0xA0 ∨ c.toNat = 0x1680 ∨
    (0x2000 ≤ c.toNat ∧ c.toNat ≤ 0x200A) ∨ c.toNat = 0x2028 ∨ c.toNat = 0x2029 ∨
    c.toNat = 0x202F ∨ c.toNat = 0x205F ∨ c.toNat = 0x3000 ∨ c.toNat = 0xFEFF)

/-- The JavaScript `\d` class. -/
def jsDigit (c : Char) : Bool :=
  decide (0x30 ≤ c.toNat ∧ c.toNat ≤ 0x39)

/-- The class `[A-Z]`. -/
def upperAZ (c : Char) : Bool :=
  decide (0x41 ≤ c.toNat ∧ c.toNat ≤ 0x5A)

theorem jsDigit_not_space {c : Char} (h : jsDigit c = true) : jsSpace c = false := by
  simp only [jsDigit, jsSpace, decide_eq_true_eq] at *
  simp only [decide_eq_false_iff_not]
  omega

/-- Length of the run of characters satisfying `p` at the front of the list. -/
def countLeading (p : Char → Bool) : List Char → Nat
  | [] => 0
  | c :: t => if p c then countLeading p t + 1 else 0

theorem countLeading_eq_zero {p : Char → Bool} {c : Char} {t : List Char}
    (h : p c = false) : countLeading p (c :: t) = 0 := by
  simp [countLeading, h]

/-- JavaScript `String.prototype.trim`. -/
def jsTrim (t : List Char) : List Char :=
  ((t.dropWhile jsSpace).reverse.dropWhile jsSpace).reverse

/-! ## A generic anchored-regex split (ECMAScript `String.prototype.split`)

`m s q` attempts to match the regex at exactly position `q` of `s`, returning
the end position of the match on success.  `splitLoop` is the ECMAScript split
algorithm: scan `q` forward; a successful match at `q` ending at `e ≠ p` cuts
the piece `s[p..q)` and resumes at `p := e`; a match that would make no
progress (`e = p`) is skipped.  The fuel is an upper bound on the number of
loop steps (at most two per position). -/

def sliceOf (s : List Char) (p q : Nat) : List Char :=
  (s.drop p).take (q - p)

def splitLoop (m : List Char → Nat → Option Nat) (s : List Char) :
    Nat → Nat → Nat → List (List Char)
  | 0, p, _ => [s.drop p]
  | fuel + 1, p, q =>
    if q < s.length then
      match m s q with
      | none => splitLoop m s fuel p (q + 1)
      | some e =>
        if e = p then splitLoop m s fuel p (q + 1)
        else sliceOf s p q :: splitLoop m s fuel e e
    else [s.drop p]

def regexSplit (m : List Char → Nat → Option Nat) (s : List Char) : List (List Char) :=
  splitLoop m s (2 * (s.length + 1)) 0 0

/-- With a matcher that never matches, the split returns the tail from `p`. -/
theorem splitLoop_of_none {m : List Char → Nat → Option Nat} {s : List Char}
    (hm : ∀ q, m s q = none) :
    ∀ fuel p q, s.length ≤ q + fuel → splitLoop m s fuel p q = [s.drop p] := by
  intro fuel
  induction fuel with
  | zero =>
    intro p q hq
    simp [splitLoop]
  | succ n ih =>
    intro p q hq
    by_cases h : q < s.length
    · simp only [splitLoop, if_pos h, hm q]
      exact ih p (q + 1) (by omega)
    · simp [splitLoop, h]

theorem regexSplit_of_none {m : List Char → Nat → Option Nat} {s : List Char}
    (hm : ∀ q, m s q = none) : regexSplit m s = [s] := by
  have := splitLoop_of_none hm (2 * (s.length + 1)) 0 0 (by omega)
  simpa [regexSplit] using this

/-! ## Matchers for the three regexes of the segmenters -/

/-- Lookahead `\d+\.\s` holds at the head of `t`: a digit run, `.`, then a
whitespace character (the greedy `\d+` can only consume the whole run, since
backtracking would place a digit where `\.` must match). -/
def numDotWsAhead (t : List Char) : Bool :=
  let m := countLeading jsDigit t
  decide (1 ≤ m) &&
    (match t.get? m with
     | some c => c == '.'
     | none => false) &&
    (match t.get? (m + 1) with
     | some c => jsSpace c
     | none => false)

/-- The zero-width matcher for `split(/(?=\d+\.\s)/)` of `clauseUtils.ts`. -/
def splitMarkMatch (s : List Char) (q : Nat) : Option Nat :=
  if numDotWsAhead (s.drop q) then some q else none

/-- The matcher for `split(/\n\x7b2,\x7d/)`: a greedy run of at least two newlines. -/
def blankRunMatch (s : List Char) (q : Nat) : Option Nat :=
  let m := countLeading (fun c => c == '\n') (s.drop q)
  if 2 ≤ m then some (q + m) else none

/-! ## The leading-digit-split segmenter (`src/src/utils/clauseUtils.ts`) -/

/-- Case-insensitive leading match of a keyword (uppercase letters and spaces);
models the `i` flag by ASCII upper-casing the subject character. -/
def ciHasLead : List Char → List Char → Bool
  | [], _ => true
  | _ :: _, [] => false
  | k :: ks, c :: cs => (Char.toUpper c == k) && ciHasLead ks cs

def headerKeywords : List (List Char) :=
  [String.toList "SERVICE AGREEMENT", String.toList "AGREEMENT",
   String.toList "CONTRACT", String.toList "TERMS AND CONDITIONS"]

/-- Position of the first `\n\n` occurrence, if any. -/
def firstDoubleNl : List Char → Option Nat
  | '\n' :: '\n' :: _ => some 0
  | _ :: rest => (firstDoubleNl rest).map (· + 1)
  | [] => none

/-- The header strip
`replace(/^(?:SERVICE AGREEMENT|AGREEMENT|CONTRACT|TERMS AND CONDITIONS)[\s\S]*?\n\n/gi, "")`:
anchored at position 0 (no `m` flag, so the `g` flag adds nothing), lazy up to
the first `\n\n` after the keyword; no keyword of the list is a prefix of
another and none contains a newline, so the first matching keyword decides. -/
def stripHeader (t : List Char) : List Char :=
  match headerKeywords.find? (fun k => ciHasLead k t) with
  | none => t
  | some k =>
    match firstDoubleNl (t.drop k.length) with
    | none => t
    | some i => t.drop (k.length + i + 2)

/-- Embeds `section.replace(/^\d+\.\s*/, "")`. -/
def stripLeadMarker (t : List Char) : List Char :=
  let m := countLeading jsDigit t
  if 1 ≤ m then
    match t.get? m with
    | some '.' => List.dropWhile jsSpace (t.drop (m + 1))
    | _ => t
  else t

/-- The per-section body of the `.map` in `extractClauses`:
`null` (here `none`) for rejected sections.  `cleaned.split('\n').length > 1`
is rendered as `cleaned` containing a newline. -/
def toClause (sec : List Char) : Option (List Char) :=
  let cleaned := jsTrim (stripLeadMarker sec)
  if cleaned.isEmpty || decide (cleaned.length < 20) then none
  else
    let hasContent := cleaned.any (fun c => c == '\n') || decide (50 < cleaned.length)
    if hasContent then some cleaned else none

def sectionsOf (clean : List Char) : List (List Char) :=
  regexSplit splitMarkMatch clean

/-- The `clauses` list of `clauseUtils.ts` (map then `.filter(Boolean)`). -/
def primaryOn (clean : List Char) : List (List Char) :=
  (sectionsOf clean).filterMap toClause

/-- Embeds `/^[A-Z\s]+$/.test(clause)`. -/
def allUpperSpace (t : List Char) : Bool :=
  !t.isEmpty && t.all (fun c => upperAZ c || jsSpace c)

/-- The blank-line fallback of `clauseUtils.ts`. -/
def fallbackOn (clean : List Char) : List (List Char) :=
  ((regexSplit blankRunMatch clean).map jsTrim).filter
    (fun clause => decide (50 < clause.length) && !allUpperSpace clause)

/-- Embeds `extractClauses` of `src/src/utils/clauseUtils.ts` on character lists. -/
def extractClausesL (t : List Char) : List (List Char) :=
  let cleanText := stripHeader t
  let clauses := primaryOn cleanText
  if 0 < clauses.length then clauses else fallbackOn cleanText

def extractClauses (s : String) : List String :=
  (extractClausesL s.toList).map (fun l => String.mk l)

/-! ## The numeric-anchor segmenter (`src/unnamed/part_002`) -/

/-- The character class `[-â€¢]` as it stands byte-for-byte in the source:
`-`, `U+00E2`, `U+20AC`, `U+00A2`. -/
def bulletClass (c : Char) : Bool :=
  c == '-' || c == 'â' || c == '€' || c == '¢'

/-- Prefix-existence of `(?:\.\d+)*[\.\)]` (inside a lookahead only existence
matters): both a further `(?:\.\d+)` iteration and the closing `[\.\)]`
require `.` at the current position, and `.` already satisfies `[\.\)]`,
so existence is decided by the head character alone. -/
def closeAfterGroups (t : List Char) : Bool :=
  match t.head? with
  | some '.' => true
  | some ')' => true
  | _ => false

/-- Prefix-existence of `\d\x7b1,2\x7d(?:\.\d+)*[\.\)]` (one or two digits, then groups). -/
def altA (t : List Char) : Bool :=
  match t with
  | c1 :: rest =>
    jsDigit c1 &&
      (closeAfterGroups rest ||
        (match rest with
         | c2 :: rest2 => jsDigit c2 && closeAfterGroups rest2
         | [] => false))
  | [] => false

/-- Prefix-existence of `\([a-z]\)`. -/
def altB (t : List Char) : Bool :=
  match t with
  | '(' :: c :: ')' :: _ => decide (0x61 ≤ c.toNat ∧ c.toNat ≤ 0x7A)
  | _ => false

/-- Prefix-existence of the bullet alternative `[-â€¢]`. -/
def altC (t : List Char) : Bool :=
  match t.head? with
  | some c => bulletClass c
  | none => false

/-- The lookahead `(?=\d\x7b1,2\x7d(?:\.\d+)*[\.\)]|\([a-z]\)|[-â€¢])`. -/
def lookClauseStart (t : List Char) : Bool :=
  altA t || altB t || altC t

/-- The suffix `(?=...)\s+` of the clause regex anchored at `r`. -/
def spacesEnd (s : List Char) (r : Nat) : Option Nat :=
  if lookClauseStart (s.drop r) then
    let m := countLeading jsSpace (s.drop r)
    if 1 ≤ m then some (r + m) else none
  else none

/-- The matcher for `/(?:^|\n)(?=...)\s+/g` of `part_002`: the zero-width `^`
alternative applies only at position 0 (no `m` flag); on its failure the
literal-newline alternative is tried. -/
def clauseRegexMatch (s : List Char) (q : Nat) : Option Nat :=
  match (if q = 0 then spacesEnd s q else none) with
  | some e => some e
  | none =>
    match s.get? q with
    | some c => if c = '\n' then spacesEnd s (q + 1) else none
    | none => none

/-- The `splitByRegex` list of `part_002` (split, trim, `.filter(Boolean)`). -/
def altPrimary (t : List Char) : List (List Char) :=
  ((regexSplit clauseRegexMatch t).map jsTrim).filter (fun c => !c.isEmpty)

/-- The blank-line fallback of `part_002`. -/
def altFallback (t : List Char) : List (List Char) :=
  ((regexSplit blankRunMatch t).map jsTrim).filter (fun c => !c.isEmpty)

/-- Embeds `extractClauses` of `src/unnamed/part_002` on character lists. -/
def extractClausesAltL (t : List Char) : List (List Char) :=
  let splitByRegex := altPrimary t
  if splitByRegex.length < 3 then altFallback t else splitByRegex

def extractClausesAlt (s : String) : List String :=
  (extractClausesAltL s.toList).map (fun l => String.mk l)

/-! ## The analysis orchestrator (`src/src/App.tsx`) and the collaborator
response mapping (`src/src/utils/openaiUtils.ts`)

JavaScript numbers are modelled over the integers.  An `Option` field models a
value that may fail the `typeof x === "number"` test (for numbers) or be an
absent/falsy field (for strings); `JSON.parse` cannot produce `NaN`. -/

structure AnalysisResult where
  summary : String
  dangerScore : Int
  riskReason : String
  remediationAdvice : String
  confidenceScore : Int
deriving Repr, DecidableEq

structure Clause where
  id : String
  originalText : String
  summary : String
  dangerScore : Int
  riskReason : String
deriving Repr, DecidableEq

/-- JavaScript `s || d` for a possibly-absent string: the empty string is falsy. -/
def jsOrString (s : Option String) (d : String) : String :=
  match s with
  | some t => if t = "" then d else t
  | none => d

/-- Embeds `Math.max(0, Math.min(100, n))`. -/
def jsClamp (n : Int) : Int := max 0 (min 100 n)

/-- One element of the JSON array parsed out of the collaborator reply,
before the defaulting/clamping pass of `analyzeClausesBatchWithOpenAI`. -/
structure RawItem where
  summary : Option String
  dangerScore : Option Int
  riskReason : Option String
  remediationAdvice : Option String
  confidenceScore : Option Int
deriving Repr, DecidableEq

/-- Embeds the `result.map((item) => ...)` body at `openaiUtils.ts:288-301`. -/
def toAnalysisResult (item : RawItem) : AnalysisResult :=
  { summary := jsOrString item.summary "",
    dangerScore :=
      match item.dangerScore with
      | some n => jsClamp n
      | none => 50,
    riskReason := jsOrString item.riskReason "",
    remediationAdvice :=
      jsOrString item.remediationAdvice "No specific remediation advice provided.",
    confidenceScore :=
      match item.confidenceScore with
      | some n => jsClamp n
      | none => 80 }

/-- The successfully-parsed-response path of `analyzeClausesBatchWithOpenAI`. -/
def mapParsedBatch (items : List RawItem) : List AnalysisResult :=
  items.map toAnalysisResult

/-- Embeds `clauseStrings.map((clauseText, idx) => ...)` of `handleFileUpload`:
the initial records with the loading placeholders. -/
def buildClausesFrom (now : Nat) : List String → Nat → List Clause
  | [], _ => []
  | s :: rest, idx =>
    { id := toString now ++ "-" ++ toString idx,
      originalText := s,
      summary := "Analyzing...",
      dangerScore := -1,
      riskReason := "Analyzing..." } :: buildClausesFrom now rest (idx + 1)

def buildClauses (clauseStrings : List String) (now : Nat) : List Clause :=
  buildClausesFrom now clauseStrings 0

/-- The per-record body of the success branch:
`analysisResults[idx]` may be absent (`?.` indexing); a present record always
carries a numeric `dangerScore`, so the `typeof` test succeeds exactly when the
index is in range. -/
def applyResult (c : Clause) (r : Option AnalysisResult) : Clause :=
  { c with
    summary := jsOrString (r.map AnalysisResult.summary) "Analysis failed",
    dangerScore :=
      match r with
      | some res => res.dangerScore
      | none => 0,
    riskReason := jsOrString (r.map AnalysisResult.riskReason) "Could not analyze clause." }

def reconcileFrom (rs : List AnalysisResult) : List Clause → Nat → List Clause
  | [], _ => []
  | c :: cs, idx => applyResult c (rs.get? idx) :: reconcileFrom rs cs (idx + 1)

/-- The success branch of `handleFileUpload`: positional reconciliation. -/
def reconcile (cs : List Clause) (rs : List AnalysisResult) : List Clause :=
  reconcileFrom rs cs 0

/-- The catch branch of `handleFileUpload`. -/
def failOverwrite (c : Clause) : Clause :=
  { c with
    summary := "Analysis failed",
    dangerScore := 0,
    riskReason := "Could not analyze clause." }

/-- The final record list produced by `handleFileUpload` for a given clause
list, batch timestamp and collaborator-call outcome (the awaited promise either
resolves with a result array or rejects). -/
def uploadOutcome (clauseStrings : List String) (now : Nat)
    (call : Except String (List AnalysisResult)) : List Clause :=
  let clauseObjects := buildClauses clauseStrings now
  match call with
  | .ok analysisResults => reconcile clauseObjects analysisResults
  | .error _ => clauseObjects.map failOverwrite

/-- Embeds `handleFileUpload` of `src/src/App.tsx`. -/
def handleFileUpload (text : String) (now : Nat)
    (call : Except String (List AnalysisResult)) : List Clause :=
  uploadOutcome (extractClauses text) now call

/-! ## Helper lemmas -/

theorem dropWhile_dropWhile (p : Char → Bool) (l : List Char) :
    List.dropWhile p (List.dropWhile p l) = List.dropWhile p l := by
  induction l with
  | nil => simp
  | cons c t ih =>
    by_cases h : p c = true
    · simpa [List.dropWhile_cons, h] using ih
    · simp [List.dropWhile_cons, h]

theorem head_dropWhile_false {p : Char → Bool} {l : List Char} {c : Char} {t' : List Char}
    (h : List.dropWhile p l = c :: t') : p c = false := by
  have hh := List.head?_dropWhile_not p l
  rw [h] at hh
  simpa using hh

theorem dropWhile_eq_self_of_head {p : Char → Bool} {l : List Char}
    (h : ∀ c t', l = c :: t' → p c = false) : List.dropWhile p l = l := by
  cases l with
  | nil => simp
  | cons c t => simp [List.dropWhile_cons, h c t rfl]

theorem jsTrim_dropWhile (t : List Char) :
    List.dropWhile jsSpace (jsTrim t) = jsTrim t := by
  apply dropWhile_eq_self_of_head
  intro c t' hc
  unfold jsTrim at hc
  have h1 : ((t.dropWhile jsSpace).reverse.dropWhile jsSpace).getLast? = some c := by
    rw [← List.head?_reverse, hc]
    rfl
  have h2 : (t.dropWhile jsSpace).reverse.getLast? = some c := by
    conv_lhs =>
      rw [← List.takeWhile_append_dropWhile jsSpace (t.dropWhile jsSpace).reverse]
    rw [List.getLast?_append, h1]
    rfl
  have h3 : (t.dropWhile jsSpace).head? = some c := by
    rw [← List.getLast?_reverse, h2]
  cases hu : t.dropWhile jsSpace with
  | nil => rw [hu] at h3; exact Option.noConfusion h3
  | cons c0 t0 =>
    rw [hu] at h3
    have : c0 = c := by simpa using h3
    exact this ▸ head_dropWhile_false hu

theorem jsTrim_idem (t : List Char) : jsTrim (jsTrim t) = jsTrim t := by
  show ((List.dropWhile jsSpace (jsTrim t)).reverse.dropWhile jsSpace).reverse = jsTrim t
  rw [jsTrim_dropWhile]
  conv_lhs => rw [jsTrim]
  rw [List.reverse_reverse, dropWhile_dropWhile]
  rfl

theorem toClause_spec {sec c : List Char} (h : toClause sec = some c) :
    c = jsTrim (stripLeadMarker sec) ∧ c ≠ [] ∧ 20 ≤ c.length := by
  simp only [toClause] at h
  by_cases h1 : (jsTrim (stripLeadMarker sec)).isEmpty
    || decide ((jsTrim (stripLeadMarker sec)).length < 20)
  · rw [if_pos h1] at h
    exact Option.noConfusion h
  · rw [if_neg h1] at h
    simp only [Bool.or_eq_true, not_or, Bool.not_eq_true, decide_eq_false_iff_not,
      Bool.decide_eq_false] at h1
    by_cases h2 : ((jsTrim (stripLeadMarker sec)).any fun c => c == '\n')
      || decide (50 < (jsTrim (stripLeadMarker sec)).length)
    · rw [if_pos h2] at h
      have hc : c = jsTrim (stripLeadMarker sec) := (Option.some.injEq _ _ ▸ h).symm
      refine ⟨hc, ?_, ?_⟩
      · intro he
        rw [he] at hc
        have := h1.1
        rw [← hc] at this
        simp at this
      · rw [hc]
        have := h1.2
        omega
    · rw [if_neg h2] at h
      exact Option.noConfusion h

theorem mem_primaryOn {clean c : List Char} (h : c ∈ primaryOn clean) :
    (∃ x, c = jsTrim x) ∧ c ≠ [] ∧ 20 ≤ c.length := by
  unfold primaryOn at h
  rcases List.mem_filterMap.mp h with ⟨sec, _, hsec⟩
  obtain ⟨hc, hne, hlen⟩ := toClause_spec hsec
  exact ⟨⟨stripLeadMarker sec, hc⟩, hne, hlen⟩

theorem mem_fallbackOn {clean c : List Char} (h : c ∈ fallbackOn clean) :
    (∃ x, c = jsTrim x) ∧ 50 < c.length ∧ allUpperSpace c = false := by
  unfold fallbackOn at h
  rcases List.mem_filter.mp h with ⟨hmem, hp⟩
  rcases List.mem_map.mp hmem with ⟨x, _, hx⟩
  simp only [Bool.and_eq_true, decide_eq_true_eq, Bool.not_eq_true'] at hp
  exact ⟨⟨x, hx.symm⟩, hp.1, hp.2⟩

theorem bulletClass_not_space {c : Char} (h : bulletClass c = true) : jsSpace c = false := by
  simp only [bulletClass, Bool.or_eq_true, beq_iff_eq] at h
  rcases h with ((h | h) | h) | h <;> (subst h; decide)

theorem altB_head {u : List Char} (h : altB u = true) : u.head? = some '(' := by
  unfold altB at h
  split at h
  · rfl
  · exact Bool.noConfusion h

theorem spacesEnd_none (s : List Char) (r : Nat) : spacesEnd s r = none := by
  unfold spacesEnd
  by_cases hL : lookClauseStart (s.drop r) = true
  · rw [if_pos hL]
    have h0 : countLeading jsSpace (s.drop r) = 0 := by
      cases hu : s.drop r with
      | nil => simp [countLeading]
      | cons c t =>
        rw [hu] at hL
        apply countLeading_eq_zero
        by_contra hsp
        have hsp' : jsSpace c = true := by
          cases hb : jsSpace c
          · exact absurd hb hsp
          · rfl
        exfalso
        simp only [lookClauseStart, Bool.or_eq_true] at hL
        rcases hL with (hA | hB) | hC
        · simp only [altA, Bool.and_eq_true] at hA
          have := jsDigit_not_space hA.1
          rw [hsp'] at this
          exact Bool.noConfusion this
        · have hh := altB_head hB
          have hcp : c = '(' := by simpa using hh
          rw [hcp] at hsp'
          exact absurd hsp' (by decide)
        · simp only [altC, List.head?] at hC
          have := bulletClass_not_space hC
          rw [hsp'] at this
          exact Bool.noConfusion this
    rw [h0]
    simp
  · simp only [Bool.not_eq_true] at hL
    rw [hL]
    simp

theorem clauseRegexMatch_none (s : List Char) (q : Nat) :
    clauseRegexMatch s q = none := by
  unfold clauseRegexMatch
  rw [spacesEnd_none, ite_self]
  cases s.get? q with
  | none => rfl
  | some c =>
    by_cases h : c = '\n'
    · simp [h, spacesEnd_none]
    · simp [h]

theorem altPrimary_eq (t : List Char) :
    altPrimary t = List.filter (fun c => !c.isEmpty) [jsTrim t] := by
  unfold altPrimary
  rw [regexSplit_of_none (clauseRegexMatch_none t)]
  rfl

theorem altPrimary_short (t : List Char) : (altPrimary t).length < 3 := by
  rw [altPrimary_eq]
  cases h : (jsTrim t).isEmpty <;> simp [List.filter, h]

/-- The numeric-anchor variant always takes its blank-line fallback branch. -/
theorem extractClausesAltL_eq (t : List Char) : extractClausesAltL t = altFallback t := by
  simp only [extractClausesAltL]
  rw [if_pos (altPrimary_short t)]

theorem mem_altFallback {t c : List Char} (h : c ∈ altFallback t) :
    (∃ x, c = jsTrim x) ∧ c ≠ [] := by
  unfold altFallback at h
  rcases List.mem_filter.mp h with ⟨hmem, hp⟩
  rcases List.mem_map.mp hmem with ⟨x, _, hx⟩
  simp only [Bool.not_eq_true'] at hp
  refine ⟨⟨x, hx.symm⟩, ?_⟩
  intro he
  rw [he] at hp
  simp at hp

theorem reconcileFrom_get? (rs : List AnalysisResult) :
    ∀ (cs : List Clause) (idx i : Nat),
      (reconcileFrom rs cs idx).get? i =
        (cs.get? i).map (fun c => applyResult c (rs.get? (idx + i))) := by
  intro cs
  induction cs with
  | nil => intro idx i; simp [reconcileFrom]
  | cons c cs ih =>
    intro idx i
    cases i with
    | zero => simp [reconcileFrom]
    | succ n =>
      have harith : idx + 1 + n = idx + (n + 1) := by omega
      simp only [reconcileFrom, List.get?_cons_succ, ih (idx + 1) n, harith]

theorem reconcileFrom_length (rs : List AnalysisResult) :
    ∀ (cs : List Clause) (idx : Nat), (reconcileFrom rs cs idx).length = cs.length := by
  intro cs
  induction cs with
  | nil => intro idx; rfl
  | cons c cs ih => intro idx; simp [reconcileFrom, ih]

theorem buildClausesFrom_length (now : Nat) :
    ∀ (ss : List String) (idx : Nat), (buildClausesFrom now ss idx).length = ss.length := by
  intro ss
  induction ss with
  | nil => intro idx; rfl
  | cons s ss ih => intro idx; simp [buildClausesFrom, ih]

theorem applyResult_id (c : Clause) (r : Option AnalysisResult) :
    (applyResult c r).id = c.id := rfl

theorem applyResult_originalText (c : Clause) (r : Option AnalysisResult) :
    (applyResult c r).originalText = c.originalText := rfl

/-! ## The claims -/

/-- C1, counterexample: on the three-numbered-items input the claim is false
for both segmenter variants.  The digit-split variant does not return the
three clauses stripped of their markers (it rejects the first two by its
length heuristics), and the numeric-anchor variant does not strip markers. -/
theorem c1_counterexample :
    extractClauses "1. Pay rent on time.\n\n2. No pets allowed without consent.\n\n3. Security deposit is $500, refundable within 30 days." ≠
      ["Pay rent on time.", "No pets allowed without consent.",
        "Security deposit is $500, refundable within 30 days."] ∧
    extractClausesAlt "1. Pay rent on time.\n\n2. No pets allowed without consent.\n\n3. Security deposit is $500, refundable within 30 days." ≠
      ["Pay rent on time.", "No pets allowed without consent.",
        "Security deposit is $500, refundable within 30 days."] :=
  ⟨by decide, by decide⟩

/-- C1, amended: on that input the digit-split `extractClauses` returns exactly
one clause, the third item stripped of its numeral marker (items one and two
are rejected as too short / single-line), while the numeric-anchor variant
returns the three items in order with their numeral markers intact. -/
theorem c1_amended :
    extractClauses "1. Pay rent on time.\n\n2. No pets allowed without consent.\n\n3. Security deposit is $500, refundable within 30 days." =
      ["Security deposit is $500, refundable within 30 days."] ∧
    extractClausesAlt "1. Pay rent on time.\n\n2. No pets allowed without consent.\n\n3. Security deposit is $500, refundable within 30 days." =
      ["1. Pay rent on time.", "2. No pets allowed without consent.",
        "3. Security deposit is $500, refundable within 30 days."] :=
  ⟨by decide, by decide⟩

/-- C2: when the awaited collaborator call fails (the promise rejects), every
one of the N clause records is overwritten with the identical fixed failure
sentinel (summary "Analysis failed", dangerScore 0, the fixed riskReason
string), uniformly — the batch never fails partially. -/
theorem c2_uniform_failure (css : List String) (now : Nat) (err : String) :
    uploadOutcome css now (Except.error err) = (buildClauses css now).map failOverwrite ∧
    (uploadOutcome css now (Except.error err)).length = css.length ∧
    ∀ c ∈ uploadOutcome css now (Except.error err),
      c.summary = "Analysis failed" ∧ c.dangerScore = 0 ∧
        c.riskReason = "Could not analyze clause." := by
  refine ⟨rfl, ?_, ?_⟩
  · show ((buildClauses css now).map failOverwrite).length = css.length
    rw [List.length_map]
    exact buildClausesFrom_length now css 0
  · intro c hc
    have hc' : c ∈ (buildClauses css now).map failOverwrite := hc
    rcases List.mem_map.mp hc' with ⟨c0, _, hc0⟩
    rw [← hc0]
    exact ⟨rfl, rfl, rfl⟩

/-- Witness for C2 at a concrete two-clause batch and a concrete error. -/
theorem c2_uniform_failure_witness :
    ∃ c ∈ uploadOutcome ["a", "b"] 7 (Except.error "network down"),
      c.summary = "Analysis failed" ∧ c.dangerScore = 0 ∧
        c.riskReason = "Could not analyze clause." :=
  ⟨{ id := "7-0", originalText := "a", summary := "Analysis failed",
     dangerScore := 0, riskReason := "Could not analyze clause." },
   by decide,
   (c2_uniform_failure ["a", "b"] 7 "network down").2.2 _ (by decide)⟩

/-- C3, counterexample: the thresholds are the other way around.  On the
three-numbered-items input the digit-split primary yields one clause (fewer
than 3), yet the code does not fall back (its result differs from the
fallback's); and on a two-paragraph input the numeric-anchor primary has one
non-rejected segment (not zero), yet the code does fall back. -/
theorem c3_counterexample :
    (primaryOn (stripHeader (String.toList "1. Pay rent on time.\n\n2. No pets allowed without consent.\n\n3. Security deposit is $500, refundable within 30 days."))).length < 3 ∧
    extractClausesL (String.toList "1. Pay rent on time.\n\n2. No pets allowed without consent.\n\n3. Security deposit is $500, refundable within 30 days.") ≠
      fallbackOn (stripHeader (String.toList "1. Pay rent on time.\n\n2. No pets allowed without consent.\n\n3. Security deposit is $500, refundable within 30 days.")) ∧
    (altPrimary (String.toList "a\n\nb")).length ≠ 0 ∧
    extractClausesAltL (String.toList "a\n\nb") = altFallback (String.toList "a\n\nb") ∧
    extractClausesAltL (String.toList "a\n\nb") ≠ altPrimary (String.toList "a\n\nb") :=
  ⟨by decide, by decide, by decide, by decide, by decide⟩

/-- C3, amended: the fallback (blank-line) path runs exactly when the primary
detector yields fewer than the minimum acceptable count, and that minimum is
one non-rejected clause (zero triggers the fallback) for the
leading-digit-split variant and 3 for the numeric-anchor variant; moreover the
numeric-anchor primary always yields fewer than 3 pieces, so its fallback
always runs. -/
theorem c3_amended (t : List Char) :
    (extractClausesL t =
      if (primaryOn (stripHeader t)).length = 0 then fallbackOn (stripHeader t)
      else primaryOn (stripHeader t)) ∧
    (extractClausesAltL t =
      if (altPrimary t).length < 3 then altFallback t else altPrimary t) ∧
    (altPrimary t).length < 3 := by
  refine ⟨?_, rfl, altPrimary_short t⟩
  simp only [extractClausesL]
  by_cases h : (primaryOn (stripHeader t)).length = 0
  · rw [if_pos h, if_neg (by omega)]
  · rw [if_neg h, if_pos (by omega)]

/-- C7: both segmenter variants are total functions (the embedding is a plain
function, so no input can make them throw), and on the empty string both
return the empty sequence. -/
theorem c7_empty_input :
    extractClauses "" = [] ∧ extractClausesAlt "" = [] :=
  ⟨by decide, by decide⟩

/-- Modelled from the claim's words (the specification side of the
refinement): split the input on any run of two or more consecutive newlines,
trim each piece, and drop the pieces that are empty. -/
def plainBlankSegments (s : String) : List String :=
  (((regexSplit blankRunMatch s.toList).map jsTrim).filter
    (fun c => !c.isEmpty)).map (fun l => String.mk l)

/-- C9: the numeric-anchor variant is extensionally the plain blank-line
splitter: its boundary regex demands a position that passes a non-whitespace
lookahead and then starts `\s+`, which is impossible, so the regex never
matches, the primary split returns the whole string, and the fewer-than-3
fallback always runs. -/
theorem c9_alt_is_blank_split (s : String) :
    extractClausesAlt s = plainBlankSegments s ∧
    (∀ q, clauseRegexMatch s.toList q = none) ∧
    regexSplit clauseRegexMatch s.toList = [s.toList] := by
  refine ⟨?_, clauseRegexMatch_none s.toList,
    regexSplit_of_none (clauseRegexMatch_none s.toList)⟩
  unfold extractClausesAlt plainBlankSegments
  rw [extractClausesAltL_eq]
  rfl

/-- C4, counterexample: a position that has a collaborator result does not
always carry that result's summary — an empty-string summary is falsy in
JavaScript, so the record falls back to "Analysis failed" instead. -/
theorem c4_counterexample :
    ([{ summary := "", dangerScore := 7, riskReason := "r1",
        remediationAdvice := "m1", confidenceScore := 9 },
      { summary := "s2", dangerScore := 8, riskReason := "r2",
        remediationAdvice := "m2", confidenceScore := 9 }] :
        List AnalysisResult).length <
      (buildClauses ["aaa", "bbb", "ccc"] 0).length ∧
    ((reconcile (buildClauses ["aaa", "bbb", "ccc"] 0)
        [{ summary := "", dangerScore := 7, riskReason := "r1",
           remediationAdvice := "m1", confidenceScore := 9 },
         { summary := "s2", dangerScore := 8, riskReason := "r2",
           remediationAdvice := "m2", confidenceScore := 9 }]).get? 0).map
        Clause.summary ≠
      (([{ summary := "", dangerScore := 7, riskReason := "r1",
           remediationAdvice := "m1", confidenceScore := 9 },
         { summary := "s2", dangerScore := 8, riskReason := "r2",
           remediationAdvice := "m2", confidenceScore := 9 }] :
           List AnalysisResult).get? 0).map AnalysisResult.summary :=
  ⟨by decide, by decide⟩

/-- C4, amended: reconciliation is positional and undefined-safe for every
clause list and result array.  A position with a result carries that result's
dangerScore, and its summary and riskReason except that an empty string falls
back fieldwise to the failure text; a missing position individually falls back
to the full failure sentinel, independent of the rest of the batch. -/
theorem c4_amended (cs : List Clause) (rs : List AnalysisResult) (i : Nat)
    (h : i < cs.length) :
    (reconcile cs rs).get? i = some (applyResult (cs.get ⟨i, h⟩) (rs.get? i)) ∧
    (∀ r, rs.get? i = some r →
      applyResult (cs.get ⟨i, h⟩) (some r) =
        { cs.get ⟨i, h⟩ with
          summary := if r.summary = "" then "Analysis failed" else r.summary,
          dangerScore := r.dangerScore,
          riskReason :=
            if r.riskReason = "" then "Could not analyze clause." else r.riskReason }) ∧
    (rs.get? i = none →
      applyResult (cs.get ⟨i, h⟩) none = failOverwrite (cs.get ⟨i, h⟩)) := by
  refine ⟨?_, fun r _ => rfl, fun _ => rfl⟩
  have hg := reconcileFrom_get? rs cs 0 i
  rw [Nat.zero_add] at hg
  rw [reconcile, hg, List.get?_eq_get h]
  rfl

/-- Witness for C4 at three concrete clauses, one concrete result, and the
out-of-range position 2, which receives the failure sentinel summary. -/
theorem c4_amended_witness :
    ((reconcile (buildClauses ["a", "b", "c"] 3)
        [{ summary := "s1", dangerScore := 7, riskReason := "r1",
           remediationAdvice := "m1", confidenceScore := 9 }]).get? 2).map
        Clause.summary =
      some "Analysis failed" := by
  have h := c4_amended (buildClauses ["a", "b", "c"] 3)
    [{ summary := "s1", dangerScore := 7, riskReason := "r1",
       remediationAdvice := "m1", confidenceScore := 9 }] 2 (by decide)
  rw [h.1]
  decide

/-- C5, counterexample: the numeric-anchor variant emits a clause of length 2
on a single line — shorter than 20 characters without spanning multiple
lines. -/
theorem c5_counterexample :
    extractClausesAlt "hi" = ["hi"] ∧
    String.length "hi" < 20 ∧
    ((String.toList "hi").any fun c => c == '\n') = false :=
  ⟨by decide, by decide, by decide⟩

/-- C5, amended: every clause emitted by the digit-split variant is nonempty,
already trimmed (hence nonempty after trimming) and at least 20 characters
long; the numeric-anchor variant guarantees only that every emitted clause is
nonempty and trimmed. -/
theorem c5_amended (t : List Char) :
    (∀ c ∈ extractClausesL t, c ≠ [] ∧ jsTrim c = c ∧ 20 ≤ c.length) ∧
    (∀ c ∈ extractClausesAltL t, c ≠ [] ∧ jsTrim c = c) := by
  constructor
  · intro c hc
    simp only [extractClausesL] at hc
    by_cases hp : 0 < (primaryOn (stripHeader t)).length
    · rw [if_pos hp] at hc
      obtain ⟨⟨x, hx⟩, hne, hlen⟩ := mem_primaryOn hc
      exact ⟨hne, by rw [hx, jsTrim_idem], hlen⟩
    · rw [if_neg hp] at hc
      obtain ⟨⟨x, hx⟩, hlen, _⟩ := mem_fallbackOn hc
      refine ⟨?_, by rw [hx, jsTrim_idem], by omega⟩
      intro he
      rw [he] at hlen
      simp at hlen
  · intro c hc
    rw [extractClausesAltL_eq] at hc
    obtain ⟨⟨x, hx⟩, hne⟩ := mem_altFallback hc
    exact ⟨hne, by rw [hx, jsTrim_idem]⟩

/-- Witness for C5 at the three-numbered-items input and the one clause the
digit-split variant emits for it. -/
theorem c5_amended_witness :
    String.toList "Security deposit is $500, refundable within 30 days." ≠ [] ∧
    jsTrim (String.toList "Security deposit is $500, refundable within 30 days.") =
      String.toList "Security deposit is $500, refundable within 30 days." ∧
    20 ≤ (String.toList "Security deposit is $500, refundable within 30 days.").length :=
  (c5_amended (String.toList "1. Pay rent on time.\n\n2. No pets allowed without consent.\n\n3. Security deposit is $500, refundable within 30 days.")).1
    _ (by decide)

/-- C6, counterexample: the numeric-anchor variant's fallback (which always
runs) emits a short ALL-CAPS piece unchanged, so a single short all-caps title
is not rejected by both variants. -/
theorem c6_counterexample :
    extractClausesAlt "HI" = ["HI"] ∧
    allUpperSpace (String.toList "HI") = true ∧
    String.length "HI" ≤ 50 :=
  ⟨by decide, by decide, by decide⟩

/-- C6, amended: whenever the digit-split variant's fallback runs (its primary
yields no clause), every emitted piece exceeds 50 characters after trimming
and is not composed entirely of uppercase letters and whitespace; a single
short ALL-CAPS title therefore yields the empty sequence under the digit-split
variant, while the numeric-anchor variant returns the title itself. -/
theorem c6_amended (t : List Char) :
    ((primaryOn (stripHeader t)).length = 0 →
      ∀ c ∈ extractClausesL t, 50 < c.length ∧ allUpperSpace c = false) ∧
    extractClauses "CONFIDENTIALITY" = [] ∧
    extractClausesAlt "CONFIDENTIALITY" = ["CONFIDENTIALITY"] := by
  refine ⟨?_, by decide, by decide⟩
  intro hp c hc
  simp only [extractClausesL] at hc
  rw [if_neg (by omega)] at hc
  obtain ⟨_, hlen, hcaps⟩ := mem_fallbackOn hc
  exact ⟨hlen, hcaps⟩

/-- Witness for C6 at an input whose digit-split primary rejects every section
while the blank-line fallback keeps the whole (long, lowercase) line. -/
theorem c6_amended_witness :
    50 < (String.toList "2. aaa 3. bbb 4. ccc 5. ddd 6. eee 7. fff 8. ggg 9. hhh").length ∧
    allUpperSpace (String.toList "2. aaa 3. bbb 4. ccc 5. ddd 6. eee 7. fff 8. ggg 9. hhh") = false :=
  (c6_amended (String.toList "2. aaa 3. bbb 4. ccc 5. ddd 6. eee 7. fff 8. ggg 9. hhh")).1
    (by decide) _ (by decide)

/-- C8: every analysis result built from a successfully parsed collaborator
response has its dangerScore in [0, 100]: numeric scores are clamped into the
range and non-numeric ones are replaced by the in-range default 50. -/
theorem c8_dangerScore_in_range (items : List RawItem) :
    ∀ r ∈ mapParsedBatch items, 0 ≤ r.dangerScore ∧ r.dangerScore ≤ 100 := by
  intro r hr
  rcases List.mem_map.mp hr with ⟨item, _, hitem⟩
  rw [← hitem]
  cases hd : item.dangerScore with
  | none =>
    have h1 : (toAnalysisResult item).dangerScore = 50 := by
      simp [toAnalysisResult, hd]
    rw [h1]
    norm_num
  | some n =>
    have h1 : (toAnalysisResult item).dangerScore = jsClamp n := by
      simp [toAnalysisResult, hd]
    rw [h1]
    unfold jsClamp
    exact ⟨le_max_left 0 _, max_le (by norm_num) (min_le_left 100 n)⟩

/-- Witness for C8 at a concrete parsed item whose raw score 250 is clamped. -/
theorem c8_dangerScore_in_range_witness :
    0 ≤ (toAnalysisResult
          { summary := some "s", dangerScore := some 250, riskReason := some "r",
            remediationAdvice := none, confidenceScore := none }).dangerScore ∧
    (toAnalysisResult
          { summary := some "s", dangerScore := some 250, riskReason := some "r",
            remediationAdvice := none, confidenceScore := none }).dangerScore ≤ 100 :=
  c8_dangerScore_in_range
    [{ summary := some "s", dangerScore := some 250, riskReason := some "r",
       remediationAdvice := none, confidenceScore := none }] _ (by decide)

/-- C10: for every clause record created by `handleFileUpload`, reconciliation
never changes the id or originalText fields: both the success path and the
failure path rewrite only summary, dangerScore and riskReason, and the record
count is the clause count. -/
theorem c10_frame_preserved (text : String) (now : Nat)
    (call : Except String (List AnalysisResult)) (i : Nat) :
    ((handleFileUpload text now call).get? i).map Clause.id =
      ((buildClauses (extractClauses text) now).get? i).map Clause.id ∧
    ((handleFileUpload text now call).get? i).map Clause.originalText =
      ((buildClauses (extractClauses text) now).get? i).map Clause.originalText ∧
    (handleFileUpload text now call).length = (extractClauses text).length := by
  cases call with
  | ok rs =>
    have hg : (handleFileUpload text now (Except.ok rs)).get? i =
        ((buildClauses (extractClauses text) now).get? i).map
          (fun c => applyResult c (rs.get? i)) := by
      have h0 := reconcileFrom_get? rs (buildClauses (extractClauses text) now) 0 i
      rw [Nat.zero_add] at h0
      exact h0
    refine ⟨?_, ?_, ?_⟩
    · rw [hg]
      cases (buildClauses (extractClauses text) now).get? i <;> rfl
    · rw [hg]
      cases (buildClauses (extractClauses text) now).get? i <;> rfl
    · show (reconcileFrom rs (buildClauses (extractClauses text) now) 0).length = _
      rw [reconcileFrom_length]
      exact buildClausesFrom_length now (extractClauses text) 0
  | error e =>
    refine ⟨?_, ?_, ?_⟩
    · show (((buildClauses (extractClauses text) now).map failOverwrite).get? i).map
          Clause.id = _
      rw [List.get?_map]
      cases (buildClauses (extractClauses text) now).get? i <;> rfl
    · show (((buildClauses (extractClauses text) now).map failOverwrite).get? i).map
          Clause.originalText = _
      rw [List.get?_map]
      cases (buildClauses (extractClauses text) now).get? i <;> rfl
    · show ((buildClauses (extractClauses text) now).map failOverwrite).length = _
      rw [List.length_map]
      exact buildClausesFrom_length now (extractClauses text) 0

end ClauseCheck
